import Mathlib

/-!
# Verification of the break4w value-coercion and validation engine

A shallow embedding of the core of the `break4w` data-dictionary library:
the type-coercion engine (`Question._identify_remap_function`), the
admissible-order tracker (`Categorical._update_order`), the column
validators (`Categorical.validate`, `Continous.validate`), the
code-to-label conversion (`Categorical.analysis_convert_to_label`) and the
flat series serialization (`Question._to_series` / `Question._read_series`).

Python cell values are modelled by the closed inductive `Value`
(strings, ints, floats as rationals, booleans, and a null covering both
`None` and `np.nan`).  Python `==` (which identifies `1`, `1.0` and
`True`, and never identifies a string with a number) is modelled by
`pyEq`; container membership (`x in s`, which matches `nan` by identity)
is `pyMem`.  Machine floats are modelled by rationals: none of the
verified properties depends on rounding.  The `datetime.now()` timestamp
of a provenance entry is I/O and is omitted from `LogEntry`; "structurally
identical save timestamp" in the source spec is therefore plain equality
of `LogEntry`.
-/

namespace Break4w

/-- A Python cell value: the value universe handled by the engine.
`null` models both `None` and `np.nan` (everything `pd.isnull` accepts). -/
inductive Value where
  | str (s : String)
  | int (n : ℤ)
  | float (q : ℚ)
  | bool (b : Bool)
  | null
deriving DecidableEq

/-- The numeric content of a value, when Python treats it as a number
(`True`/`False` count as `1`/`0`). -/
def Value.toRatN : Value → Option ℚ
  | .int n => some (n : ℚ)
  | .float q => some q
  | .bool b => some (if b then 1 else 0)
  | _ => none

/-- Python `==` as used by `in` and set operations: cross-type numeric
equality (`1 == 1.0 == True`), strings only equal strings, and `nan`
matching itself (containers match `nan` by identity, which is how every
`nan`-vs-container comparison in this code base happens). -/
def pyEq (x y : Value) : Bool :=
  match x.toRatN, y.toRatN with
  | some a, some b => a = b
  | _, _ =>
    match x, y with
    | .str a, .str b => a = b
    | .null, .null => true
    | _, _ => false

/-- Python `x in container`. -/
def pyMem (x : Value) (l : List Value) : Bool :=
  l.any (fun y => pyEq x y)

/-- `pd.isnull`. -/
def Value.isnull : Value → Bool
  | .null => true
  | _ => false

/-- The declared datatypes the engine dispatches on (`dtype` class
objects in the source; the `tuple` dtype is accepted by `Categorical`
but exercised nowhere in the core, and is not modelled). -/
inductive DType where
  | str | int | float | bool
deriving DecidableEq

/-- `str(dtype).replace("<class '", '').replace("'>", '')`. -/
def dtypeName : DType → String
  | .str => "str"
  | .int => "int"
  | .float => "float"
  | .bool => "bool"

/-- Value of a nonempty all-digit character list. -/
def digitsVal (l : List Char) : Option ℕ :=
  if l ≠ [] ∧ l.all Char.isDigit then
    some (l.foldl (fun a c => a * 10 + (c.toNat - 48)) 0)
  else
    none

/-- Python `str.strip()` with no argument: surrounding whitespace. -/
def pyStrip (s : String) : List Char :=
  (((s.data.dropWhile Char.isWhitespace).reverse.dropWhile
    Char.isWhitespace).reverse)

/-- Model of Python `int(s)` on a string: optional sign then digits
(surrounding whitespace stripped; digit-group underscores are not
modelled). -/
def parseIntStr (s : String) : Option ℤ :=
  match pyStrip s with
  | '-' :: rest => (digitsVal rest).map (fun n => -(n : ℤ))
  | '+' :: rest => (digitsVal rest).map (fun n => (n : ℤ))
  | l => (digitsVal l).map (fun n => (n : ℤ))

/-- Digit-sequence value. -/
def listDigits (l : List Char) : ℕ :=
  l.foldl (fun x c => x * 10 + (c.toNat - 48)) 0

/-- Unsigned decimal: `digits`, `digits.digits`, `digits.` or `.digits`
(at most one decimal point). -/
def parseUFrac (l : List Char) : Option ℚ :=
  let a := l.takeWhile (fun c => c != '.')
  match l.dropWhile (fun c => c != '.') with
  | [] => (digitsVal a).map (fun n => (n : ℚ))
  | _ :: b =>
    if b.contains '.' then none
    else if (a ++ b) ≠ [] ∧ (a ++ b).all Char.isDigit then
      some ((listDigits a : ℚ) + (listDigits b : ℚ) / ((10 : ℚ) ^ b.length))
    else none

/-- Model of Python `float(s)` on a string (exponents, `inf` and `nan`
literals are not modelled; no verified property depends on them). -/
def parseFloatStr (s : String) : Option ℚ :=
  match pyStrip s with
  | '-' :: rest => (parseUFrac rest).map (fun q => -q)
  | '+' :: rest => parseUFrac rest
  | l => parseUFrac l

/-- Decimal rendering of a rational whose denominator divides a power of
ten; fraction notation otherwise.  Models `str()` of a Python float on
the exactly-representable values that occur in this development. -/
def ratDecimal (q : ℚ) : String :=
  if q.den = 1 then toString q.num ++ ".0"
  else
    match (List.range 30).find? (fun k => ((10 : ℤ) ^ k) % (q.den : ℤ) = 0) with
    | some k =>
      let scaled : ℤ := q.num * (((10 : ℤ) ^ k) / (q.den : ℤ))
      let mag : ℕ := scaled.natAbs
      let intPart : ℕ := mag / (10 ^ k)
      let fracPart : ℕ := mag % (10 ^ k)
      let fracStr := toString fracPart
      let pad := String.mk (List.replicate (k - fracStr.length) '0')
      (if scaled < 0 then "-" else "") ++ toString intPart ++ "." ++ pad ++ fracStr
    | none => toString q.num ++ "/" ++ toString q.den

/-- Python `str(x)` / `'%s' % x` on a cell value. -/
def pyStr : Value → String
  | .str s => s
  | .int n => toString n
  | .float q => ratDecimal q
  | .bool b => if b then "True" else "False"
  | .null => "nan"

/-- Python `dtype(x)` for the non-boolean dtypes: direct construction,
`none` when the construction raises. -/
def dtypeCast (dt : DType) (x : Value) : Option Value :=
  match dt with
  | .str => some (.str (pyStr x))
  | .int =>
    (match x with
     | .str s => (parseIntStr s).map Value.int
     | .int n => some (.int n)
     | .float q => some (.int (q.num.tdiv (q.den : ℤ)))
     | .bool b => some (.int (if b then 1 else 0))
     | .null => none)
  | .float =>
    (match x with
     | .str s => (parseFloatStr s).map Value.float
     | .int n => some (.float (n : ℚ))
     | .float q => some (.float q)
     | .bool b => some (.float (if b then 1 else 0))
     | .null => none)
  | .bool => none

/-- `break4w._defaults.true_values = {'yes', 'true', 1, 1.0, True}`
(kept literally; under `pyEq` the three numeric entries coincide). -/
def true_values : List Value :=
  [.str "yes", .str "true", .int 1, .float 1, .bool true]

/-- `break4w._defaults.false_values = {'no', 'false', 0, 0.0, False}`. -/
def false_values : List Value :=
  [.str "no", .str "false", .int 0, .float 0, .bool false]

/-- `break4w._defaults.ebi_null`. -/
def ebi_null : List Value :=
  [.str "not applicable", .str "missing: not provided",
   .str "missing: not collected", .str "missing: restricted",
   .str "not provided", .str "not collected", .str "restricted"]

/-- The coercion-failure marker: the source signals failure by returning
the literal string `'error'`. -/
def errorVal : Value := .str "error"

/-- `str.lower()` (ASCII model, character by character). -/
def pyLower (s : String) : String := String.mk (s.data.map Char.toLower)

/-- `clean_up_strings` inside `_identify_remap_function`: lowercases
non-placeholder strings. -/
def clean_up_strings (placeholders : List Value) (x : Value) : Value :=
  match x with
  | .str s => if pyMem (.str s) placeholders then .str s else .str (pyLower s)
  | _ => x

/-- `Question._identify_remap_function`: the per-value coercion function
built from the declared dtype, the placeholder set and the boolean
vocabularies.  Returns the value unchanged when it is a placeholder or a
native null, the coerced value on success, and `errorVal` on failure. -/
def identify_remap_function (dt : DType) (placeholders : List Value)
    (tv fv : List Value) (x : Value) : Value :=
  if dt = .bool then
    if pyMem x placeholders || x.isnull then x
    else
      let x1 := clean_up_strings placeholders x
      if pyMem x1 tv then .bool true
      else if pyMem x1 fv then .bool false
      else errorVal
  else
    if pyMem x placeholders || x.isnull then x
    else
      match dtypeCast dt x with
      | some v => v
      | none => errorVal

/-- One provenance entry (`Question._update_log`): the `datetime.now()`
timestamp is I/O and omitted, so equality of `LogEntry` is "structurally
identical save timestamp". -/
structure LogEntry where
  column : String
  command : String
  transform_type : String
  transformation : String
deriving DecidableEq

/-- How a validation call returns to its caller: normally, or by raising.
`nameError` models the `UnboundLocalError` on the local `blanks` in
`Categorical.validate` (assigned only under `if self.blanks is None:`). -/
inductive ValidationOutcome where
  | ok
  | typeError (msg : String)
  | valueError (msg : String)
  | nameError
deriving DecidableEq

/-- The schema state of a `Categorical` (or `Bool`) question, restricted
to the attributes its validation and transformation code reads.
`blanks` is stored raw (`None` or a collection), `ambiguous` likewise;
`name_mapping`/`numeric_mapping`: `none` models the attribute not
existing on the object (`Categorical.__init__` never initializes either,
so a plain construction leaves them absent and reading them raises
`AttributeError`); `some none` models the attribute set to Python
`None`; `some (some m)` an actual mapping, as an association list. -/
structure CatSchema where
  name : String
  dtype : DType
  order : List Value
  missing : List Value := ebi_null
  blanks : Option (List Value) := none
  ambiguous : Option (List Value) := none
  trueValues : List Value := true_values
  falseValues : List Value := false_values
  name_mapping : Option (Option (List (Value × Value))) := none
  numeric_mapping : Option (Option (List (Value × Value))) := none
  log : List LogEntry := []
deriving DecidableEq

/-- `Question._update_log` on a categorical schema. -/
def CatSchema.addLog (s : CatSchema) (command transform_type transformation : String) :
    CatSchema :=
  { s with log := s.log ++
      [{ column := s.name, command := command, transform_type := transform_type,
         transformation := transformation }] }

/-- The placeholder set a categorical validation works with when the
`blanks` local is in scope, i.e. `self.missing.union(blanks).union(ambiguous)`
with `blanks = set([])` (sets are modelled as lists; all uses are
membership queries under `pyEq`). -/
def CatSchema.placeholders (s : CatSchema) : List Value :=
  s.missing ++ (s.ambiguous.getD [])

/-- The coercion function `Categorical.validate` builds for a schema. -/
def CatSchema.remapFn (s : CatSchema) : Value → Value :=
  identify_remap_function s.dtype s.placeholders s.trueValues s.falseValues

/-- First-occurrence deduplication under Python equality, with an
accumulator of already-seen values; models `Series.unique()`. -/
def pyDedupAux (seen : List Value) : List Value → List Value
  | [] => []
  | x :: xs =>
    if pyMem x seen then pyDedupAux seen xs
    else x :: pyDedupAux (x :: seen) xs

/-- `Series.unique()`: distinct values in order of first appearance. -/
def pyDedup (l : List Value) : List Value := pyDedupAux [] l

/-- Lexicographic code-point comparison of character lists (Python `<`
on strings). -/
def charListLt : List Char → List Char → Bool
  | [], [] => false
  | [], _ :: _ => true
  | _ :: _, [] => false
  | a :: as, b :: bs =>
    if a.toNat < b.toNat then true
    else if b.toNat < a.toNat then false
    else charListLt as bs

/-- A total linear-ish comparison modelling Python `<` where the source
applies `sorted()`: numbers by value, strings lexicographically.
(Python raises on an unordered mixed pair; the validators only sort
same-typed offending values, so the cross-kind branch is never hit
there; it is totalized by constructor rank.) -/
def valueLt (x y : Value) : Bool :=
  match x.toRatN, y.toRatN with
  | some a, some b => a < b
  | _, _ =>
    match x, y with
    | .str a, .str b => charListLt a.data b.data
    | .str _, _ => false
    | _, .str _ => true
    | _, _ => false

/-- Stable insertion into a sorted list. -/
def insertSorted (x : Value) : List Value → List Value
  | [] => [x]
  | y :: ys => if valueLt y x then y :: insertSorted x ys else x :: y :: ys

/-- `sorted()` on a list of values. -/
def sortValues (l : List Value) : List Value :=
  l.foldr insertSorted []

/-- `' | '.join(...)`. -/
def joinBar (l : List String) : String := String.intercalate " | " l

/-- The message of the TYPE_CHECK failure, `'the data cannot be cast to %s'`. -/
def castFailMsg (dt : DType) : String :=
  "the data cannot be cast to " ++ dtypeName dt

/-- The message of the TYPE_CHECK pass entry. -/
def castPassMsg (dt : DType) : String :=
  "the data can be cast to " ++ dtypeName dt

/-- The provenance entries and the outcome of `Categorical.validate`
once the `blanks` local is known to be in scope; `s.log` itself is not
consulted.  Mirrors `categorical.py` lines 390-437. -/
def catValidateCore (s : CatSchema) (col : List Value) :
    List LogEntry × ValidationOutcome :=
  let f := s.remapFn
  let dseries := col.map f
  let new_order := s.order.map f
  if dseries.any (fun x => pyEq x errorVal) then
    ([{ column := s.name, command := "validate", transform_type := "error",
        transformation := castFailMsg s.dtype }],
     .typeError (castFailMsg s.dtype))
  else
    let e1 : LogEntry :=
      { column := s.name, command := "validate", transform_type := "pass",
        transformation := castPassMsg s.dtype }
    let acceptable := s.placeholders ++ new_order
    let actual := (pyDedup dseries).filter (fun v => !v.isnull)
    if actual.all (fun v => pyMem v acceptable) then
      ([e1, { column := s.name, command := "validate", transform_type := "pass",
              transformation := "all values were valid" }], .ok)
    else
      let descriptor :=
        (sortValues (actual.filter (fun v => !pyMem v acceptable))).map pyStr
      let m := "The following are not valid values: " ++ joinBar descriptor
      ([e1, { column := s.name, command := "validate", transform_type := "error",
              transformation := m }], .valueError m)

/-- `Categorical.validate` (also `Bool.validate`, which inherits it).
When `self.blanks` is not `None` the local `blanks` is never assigned
and the method dies with an `UnboundLocalError` before anything is
logged; otherwise the TYPE_CHECK / VALUE_CHECK phases of
`catValidateCore` run and their entries are appended to the log.  The
method never writes into the data frame (`iseries` is a copy), so the
column is not part of the result. -/
def Categorical.validate (s : CatSchema) (col : List Value) :
    CatSchema × ValidationOutcome :=
  match s.blanks with
  | some _ => (s, .nameError)
  | none =>
    let r := catValidateCore s col
    ({ s with log := s.log ++ r.1 }, r.2)

/-- `Categorical._update_order`: rebuilds `self.order` by applying
`remap_` to every element in order, appending each image not already
present (Python `in`, i.e. `pyEq` membership) and not null. -/
def update_order (remap : Value → Value) (order : List Value) : List Value :=
  order.foldl
    (fun acc o =>
      let new_o := remap o
      if !pyMem new_o acc && !new_o.isnull then acc ++ [new_o] else acc)
    []

/-- The schema state of a `Continous` question restricted to what its
validation reads.  `Continous.__init__` never sets `ambiguous`, so the
`hasattr(self, 'ambiguous')` test in `validate` is always false. -/
structure ContSchema where
  name : String
  units : String
  dtype : DType := .float
  bound_lower : Option Value := none
  bound_upper : Option Value := none
  missing : List Value := ebi_null
  blanks : Option (List Value) := none
  trueValues : List Value := true_values
  falseValues : List Value := false_values
  log : List LogEntry := []
deriving DecidableEq

/-- Placeholders of a continuous schema:
`self.missing.union(blanks).union(ambiguous)` where `blanks` defaults to
the empty set, a string becomes a singleton, and `ambiguous` is always
empty (the attribute does not exist on `Continous`). -/
def ContSchema.placeholders (s : ContSchema) : List Value :=
  s.missing ++ s.blanks.getD []

/-- The coercion function `Continous.validate` builds. -/
def ContSchema.remapFn (s : ContSchema) : Value → Value :=
  identify_remap_function s.dtype s.placeholders s.trueValues s.falseValues

/-- Pandas `series < bound` on a cell, as used on the coerced,
placeholder-stripped series (all values numeric there; totalized with
`false` elsewhere). -/
def numLt (v bound : Value) : Bool :=
  match v.toRatN, bound.toRatN with
  | some a, some b => a < b
  | _, _ => false

/-- Pandas `series > bound` on a cell. -/
def numGt (v bound : Value) : Bool :=
  match v.toRatN, bound.toRatN with
  | some a, some b => b < a
  | _, _ => false

/-- The coerced series after `replace(list(placeholders), np.nan).dropna()`. -/
def ContSchema.cleaned (s : ContSchema) (col : List Value) : List Value :=
  ((col.map s.remapFn).map
      (fun v => if pyMem v s.placeholders then Value.null else v)).filter
    (fun v => !v.isnull)

/-- Provenance entries and outcome of `Continous.validate`
(`continous.py` lines 150-238); `s.log` itself is not consulted. -/
def contValidateCore (s : ContSchema) (col : List Value) :
    List LogEntry × ValidationOutcome :=
  let iseries := col.map s.remapFn
  if iseries.any (fun x => pyEq x errorVal) then
    ([{ column := s.name, command := "validate", transform_type := "error",
        transformation := castFailMsg s.dtype }],
     .typeError (castFailMsg s.dtype))
  else
    let e1 : LogEntry :=
      { column := s.name, command := "validate", transform_type := "pass",
        transformation := castPassMsg s.dtype }
    let vals := s.cleaned col
    let update_text :=
      match s.bound_lower, s.bound_upper with
      | some lo, some hi =>
        "The values were between " ++ pyStr lo ++ " and " ++ pyStr hi ++ " " ++
          s.units ++ "."
      | none, some hi =>
        "The values were less than or equal to " ++ pyStr hi ++ " " ++ s.units ++ "."
      | some lo, none =>
        "The values were greater than or equal to " ++ pyStr lo ++ " " ++ s.units ++ "."
      | none, none => "there were no limits specified"
    let lower_issue :=
      match s.bound_lower with
      | some lo => vals.any (fun v => numLt v lo)
      | none => false
    let upper_issue :=
      match s.bound_upper with
      | some hi => vals.any (fun v => numGt v hi)
      | none => false
    let lower_text :=
      match s.bound_lower with
      | some lo => "less than " ++ pyStr lo
      | none => ""
    let upper_text :=
      match s.bound_upper with
      | some hi => "greater than " ++ pyStr hi
      | none => ""
    if lower_issue && upper_issue then
      let m := "There are values " ++ lower_text ++ " and " ++ upper_text ++ " " ++
        s.units ++ "."
      ([e1, { column := s.name, command := "validate", transform_type := "error",
              transformation := m }], .valueError m)
    else if lower_issue then
      let m := "There are values " ++ lower_text ++ " " ++ s.units ++ "."
      ([e1, { column := s.name, command := "validate", transform_type := "error",
              transformation := m }], .valueError m)
    else if upper_issue then
      let m := "There are values " ++ upper_text ++ " " ++ s.units ++ "."
      ([e1, { column := s.name, command := "validate", transform_type := "error",
              transformation := m }], .valueError m)
    else
      ([e1, { column := s.name, command := "validate", transform_type := "pass",
              transformation := update_text }], .ok)

/-- `Continous.validate`: its `blanks` handling is complete (unlike the
categorical one), so the core always runs and its entries are appended. -/
def Continous.validate (s : ContSchema) (col : List Value) :
    ContSchema × ValidationOutcome :=
  let r := contValidateCore s col
  ({ s with log := s.log ++ r.1 }, r.2)

/-- How `analysis_convert_to_label` returns: `attributeError` models the
`AttributeError` raised by reading `self.name_mapping` when the
attribute was never created. -/
inductive ConvertOutcome where
  | ok
  | valueError (msg : String)
  | attributeError (attr : String)
deriving DecidableEq

/-- Dictionary lookup under Python equality. -/
def pyLookup (m : List (Value × Value)) (x : Value) : Option Value :=
  (m.find? (fun p => pyEq x p.1)).map Prod.snd

/-- The remap function `analysis_convert_to_label` builds: mapped keys go
to their label, everything else to `np.nan`. -/
def labelRemap (m : List (Value × Value)) (x : Value) : Value :=
  match pyLookup m x with
  | some v => v
  | none => .null

/-- `Categorical.analysis_apply_conversion` (function form): logs the
`old >>> new | ...` message over the current order, rewrites the column,
and updates the order. -/
def analysis_apply_conversion (s : CatSchema) (col : List Value)
    (remap : Value → Value) (command_name : String) :
    CatSchema × List Value :=
  let message :=
    joinBar (s.order.map (fun o => pyStr o ++ " >>> " ++ pyStr (remap o)))
  let s1 := { s with order := update_order remap s.order }
  (s1.addLog "transformation" command_name message, col.map remap)

/-- `Categorical.analysis_convert_to_label` (`categorical.py` 194-221).
Reading `self.name_mapping` raises `AttributeError` when the attribute
does not exist (plain construction never creates it); when it exists but
is `None` the error is logged and a `ValueError` raised; otherwise the
inverse mapping is defaulted and the conversion applied. -/
def analysis_convert_to_label (s : CatSchema) (col : List Value) :
    CatSchema × List Value × ConvertOutcome :=
  match s.name_mapping with
  | none => (s, col, .attributeError "name_mapping")
  | some none =>
    (s.addLog "convert to label" "error" "There is no way to map codes to labels",
     col, .valueError "There is no way to map codes to labels")
  | some (some m) =>
    match s.numeric_mapping with
    | none => (s, col, .attributeError "numeric_mapping")
    | some nm =>
      let s0 :=
        match nm with
        | none =>
          { s with numeric_mapping := some (some (m.map (fun p => (p.2, p.1)))) }
        | some _ => s
      let r := analysis_apply_conversion s0 col (labelRemap m) "convert code to label"
      (r.1, r.2, .ok)

/-! ## Flat series serialization (`Question._to_series` / `_read_series`)

The serialization fragment models a `Question` whose attribute bag holds
the attributes `Question.__init__` itself creates (the open-ended
`**kwargs` bag is outside the model).  Python sets are modelled as lists
in iteration order; `PyAttr` is the universe of the optional attribute
slots (`None`, a plain string, a list of strings, a set of strings —
exactly the shapes construction and parsing can produce for them).
Both directions return `Option`: `none` models a raised exception or a
value outside the modelled universe (e.g. a key-coded `a=b` string
parsing to a dict, or a non-`str` dtype turning set elements into
numbers). -/

/-- An optional attribute slot of a question object. -/
inductive PyAttr where
  | none
  | str (s : String)
  | strList (l : List String)
  | strSet (l : List String)
deriving DecidableEq

/-- `ebi_null` as plain strings, in its canonical iteration order. -/
def ebiNullStr : List String :=
  ["not applicable", "missing: not provided", "missing: not collected",
   "missing: restricted", "not provided", "not collected", "restricted"]

/-- The serializable state of a plain `Question` (its `__dict__` minus
`log`, in insertion order). -/
structure QSchema where
  name : String
  description : String
  dtype : DType
  qtype : String := "Question"
  clean_name : String
  free_response : Bool := false
  mimarks : Bool := false
  ontology : PyAttr := .none
  missing : List String := ebiNullStr
  blanks : PyAttr := .none
  colormap : PyAttr := .none
  original_name : PyAttr := .none
  source_columns : PyAttr := .strList []
  derivative_columns : PyAttr := .strList []
  notes : PyAttr := .none
deriving DecidableEq

/-- Python `set ==` on the list models. -/
def eqAsSet (a b : List String) : Bool :=
  a.all (fun x => b.contains x) && b.all (fun x => a.contains x)

/-- `' | '.join` on strings. -/
def joinBarS (l : List String) : String := String.intercalate " | " l

/-- `var_str % x` for a string element `x`: `'%s'` passes it through,
`'%i'` and `'%1.5f'` raise `TypeError` on a non-number. -/
def fmtElem (dt : DType) (s : String) : Option String :=
  match dt with
  | .str => some s
  | .bool => some s
  | .int => Option.none
  | .float => Option.none

/-- `_iterable_to_str` on a nonempty list/set of strings. -/
def fmtIterable (dt : DType) (l : List String) : Option String :=
  (l.mapM (fmtElem dt)).map joinBarS

/-- `_iterable_to_str` applied to one attribute slot, two-level:
outer `none` = exception, inner `none` = the attribute is dropped by
`_check_dict` (it is `None` or empty). -/
def serAttr (dt : DType) : PyAttr → Option (Option String)
  | .none => some Option.none
  | .str s => some (some s)
  | .strList [] => some Option.none
  | .strSet [] => some Option.none
  | .strList l => (fmtIterable dt l).map some
  | .strSet l => (fmtIterable dt l).map some

/-- Emit a key only when the formatter kept a value. -/
def entryOpt (k : String) : Option String → List (String × String)
  | some s => [(k, s)]
  | Option.none => []

/-- `Question._to_series`: the flat key/value encoding of a schema.
Attributes that are `None`, empty, or equal to their class default are
dropped; multi-valued attributes are `' | '`-joined under the dtype
format string. -/
def question_to_series (q : QSchema) : Option (List (String × String)) := do
  let ont ← serAttr q.dtype q.ontology
  let blk ← serAttr q.dtype q.blanks
  let cmap ← serAttr q.dtype q.colormap
  let orig ← serAttr q.dtype q.original_name
  let src ← serAttr q.dtype q.source_columns
  let der ← serAttr q.dtype q.derivative_columns
  let nts ← serAttr q.dtype q.notes
  let mis ←
    (if eqAsSet q.missing ebiNullStr || q.missing.isEmpty then some Option.none
     else (fmtIterable q.dtype q.missing).map some)
  pure ([("name", q.name), ("description", q.description),
         ("dtype", dtypeName q.dtype), ("type", q.qtype),
         ("clean_name", q.clean_name)]
    ++ (if q.free_response then [("free_response", "True")] else [])
    ++ (if q.mimarks then [("mimarks", "True")] else [])
    ++ entryOpt "ontology" ont
    ++ entryOpt "missing" mis
    ++ entryOpt "blanks" blk
    ++ entryOpt "colormap" cmap
    ++ entryOpt "original_name" orig
    ++ entryOpt "source_columns" src
    ++ entryOpt "derivative_columns" der
    ++ entryOpt "notes" nts)

/-- `pydoc.locate` on a serialized dtype name. -/
def parseDType (s : String) : Option DType :=
  if s = "str" then some .str
  else if s = "int" then some .int
  else if s = "float" then some .float
  else if s = "bool" then some .bool
  else Option.none

/-- Split on a non-overlapping separator occurrence, left to right
(Python `str.split(sep)`); the fuel argument makes the recursion
structural. -/
def splitSepFuel (sep : List Char) : ℕ → List Char → List Char →
    List (List Char)
  | 0, l, acc => [acc.reverse ++ l]
  | _ + 1, [], acc => [acc.reverse]
  | fuel + 1, c :: rest, acc =>
    if sep.isPrefixOf (c :: rest) then
      acc.reverse :: splitSepFuel sep fuel ((c :: rest).drop sep.length) []
    else
      splitSepFuel sep fuel rest (c :: acc)

/-- Python `str.split(sep)` on character lists. -/
def pySplit (sep : List Char) (l : List Char) : List (List Char) :=
  splitSepFuel sep (l.length + 1) l []

/-- Python `str.title()` (ASCII model): a letter is uppercased after a
non-letter and lowercased after a letter. -/
def pyTitle (s : String) : String :=
  String.mk
    (((s.data.foldl
        (fun (st : List Char × Bool) c =>
          ((if st.2 then c.toLower else c.toUpper) :: st.1, c.isAlpha))
        ([], false)).1).reverse)

/-- The derived display name: `name.replace('_', ' ').title()`. -/
def pyCleanName (name : String) : String :=
  pyTitle (String.intercalate " " ((pySplit ['_'] name.data).map String.mk))

/-- `pydoc.locate(v.title())` for the binary properties: `some` for the
boolean singletons, `none` when the lookup misses (the attribute would
then hold Python `None`, outside the `Bool` field of the model). -/
def parseBin (v : String) : Option Bool :=
  if pyTitle v = "True" then some true
  else if pyTitle v = "False" then some false
  else Option.none

/-- `_iterable_from_str` for a set-coded property (`properties_set`):
key-coded strings become dicts and non-`str` dtypes produce non-string
elements, both outside the modelled universe. -/
def parseSetAttr (dt : DType) (v : String) : Option PyAttr :=
  if dt ≠ DType.str then Option.none
  else if v.data.contains '=' then Option.none
  else
    let pieces := (pySplit [' ', '|', ' '] v.data).map String.mk
    if pieces.contains "None" then Option.none
    else some (.strSet pieces)

/-- A set-coded property that may be absent or the null literal. -/
def parseOptSetAttr (dt : DType) : Option String → Option PyAttr
  | Option.none => some .none
  | some v => if v = "None" then some .none else parseSetAttr dt v

/-- First value stored under a key. -/
def lookupKey (k : String) (l : List (String × String)) : Option String :=
  (l.find? (fun p => p.1 == k)).map Prod.snd

/-- The keys the modelled fragment understands; any other key would be
swallowed by the `**kwargs` bag, which is outside the model. -/
def allowedKeys : List String :=
  ["name", "description", "dtype", "type", "clean_name", "free_response",
   "mimarks", "ontology", "missing", "blanks", "colormap", "original_name",
   "source_columns", "derivative_columns", "notes"]

/-- A plain-string attribute slot (the `_handle_col` else-branch plus
constructor storage): absent or `'None'` means `None`. -/
def parseStrAttr : Option String → PyAttr
  | Option.none => .none
  | some v => if v = "None" then .none else .str v

/-- `Question._read_series` followed by `Question.__init__`: drop the
`type` key, locate the dtype, decode every column through
`_handle_col`, and rebuild the object with constructor defaults.
`none` models any exception on the way (missing or non-string `name`,
overlong `description`, unlocatable dtype, format errors). -/
def question_read_series (ser : List (String × String)) : Option QSchema := do
  let _ ← (if ser.all (fun p => allowedKeys.contains p.1) then some () else Option.none)
  let dstr ← lookupKey "dtype" ser
  let dt ← parseDType dstr
  let nameV ← lookupKey "name" ser
  let name ← (if nameV = "None" then Option.none else some nameV)
  let descV ← lookupKey "description" ser
  let descr ← (if descV = "None" then Option.none else some descV)
  let _ ← (if descr.length ≤ 80 then some () else Option.none)
  let clean_name :=
    match lookupKey "clean_name" ser with
    | some v => if v = "None" then pyCleanName name else v
    | Option.none => pyCleanName name
  let fr ←
    (match lookupKey "free_response" ser with
     | some v => if v = "None" then Option.none else parseBin v
     | Option.none => some false)
  let mim ←
    (match lookupKey "mimarks" ser with
     | some v => if v = "None" then Option.none else parseBin v
     | Option.none => some false)
  let ont ← parseOptSetAttr dt (lookupKey "ontology" ser)
  let mis :=
    (match lookupKey "missing" ser with
     | some v => if v = "None" then ebiNullStr else [v]
     | Option.none => ebiNullStr)
  let blk ← parseOptSetAttr dt (lookupKey "blanks" ser)
  let src ←
    (match lookupKey "source_columns" ser with
     | some v => if v = "None" then some (PyAttr.strList []) else parseSetAttr dt v
     | Option.none => some (PyAttr.strList []))
  let der ←
    (match lookupKey "derivative_columns" ser with
     | some v => if v = "None" then some (PyAttr.strList []) else parseSetAttr dt v
     | Option.none => some (PyAttr.strList []))
  pure
    { name := name, description := descr, dtype := dt, qtype := "Question",
      clean_name := clean_name, free_response := fr, mimarks := mim,
      ontology := ont, missing := mis, blanks := blk,
      colormap := parseStrAttr (lookupKey "colormap" ser),
      original_name := parseStrAttr (lookupKey "original_name" ser),
      source_columns := src, derivative_columns := der,
      notes := parseStrAttr (lookupKey "notes" ser) }

/-- Encode then decode. -/
def question_round_trip (q : QSchema) : Option QSchema :=
  (question_to_series q).bind question_read_series

/-- What a successfully coerced value of each declared type looks like. -/
def typedFor : DType → Value → Prop
  | .bool, v => v = .bool true ∨ v = .bool false
  | .str, v => ∃ s, v = .str s
  | .int, v => ∃ n, v = .int n
  | .float, v => ∃ q, v = .float q

/-- The acceptable values of the VALUE_CHECK phase: placeholders plus the
admissible order as coerced to the declared type. -/
def CatSchema.acceptable (s : CatSchema) : List Value :=
  s.placeholders ++ s.order.map s.remapFn

/-- The offending values of a failed VALUE_CHECK: the distinct coerced
values, null removed, outside the acceptable set. -/
def CatSchema.offending (s : CatSchema) (col : List Value) : List Value :=
  ((pyDedup (col.map s.remapFn)).filter (fun v => !v.isnull)).filter
    (fun v => !pyMem v s.acceptable)

/-- The VALUE_CHECK diagnostic: the offending values, sorted, joined. -/
def invalidMsg (s : CatSchema) (col : List Value) : String :=
  "The following are not valid values: " ++
    joinBar ((sortValues (s.offending col)).map pyStr)

/-- `lower_issue` of `Continous.validate`: some surviving value strictly
below the lower bound. -/
def ContSchema.lowerIssue (s : ContSchema) (col : List Value) : Bool :=
  match s.bound_lower with
  | some lo => (s.cleaned col).any (fun v => numLt v lo)
  | none => false

/-- `upper_issue` of `Continous.validate`: some surviving value strictly
above the upper bound. -/
def ContSchema.upperIssue (s : ContSchema) (col : List Value) : Bool :=
  match s.bound_upper with
  | some hi => (s.cleaned col).any (fun v => numGt v hi)
  | none => false

/-! ## Helper lemmas -/

theorem pyEq_refl (x : Value) : pyEq x x = true := by
  cases x <;> simp [pyEq, Value.toRatN]

theorem pyEq_symm {x y : Value} (h : pyEq x y = true) : pyEq y x = true := by
  cases x <;> cases y <;> simp_all [pyEq, Value.toRatN]

theorem pyEq_trans {x y z : Value} (h1 : pyEq x y = true) (h2 : pyEq y z = true) :
    pyEq x z = true := by
  cases x <;> cases y <;> cases z <;> simp_all [pyEq, Value.toRatN]

theorem pyEq_null {x : Value} (h : pyEq x .null = true) : x = .null := by
  cases x <;> simp_all [pyEq, Value.toRatN]

theorem pyMem_congr {x y : Value} (l : List Value) (h : pyEq x y = true) :
    pyMem x l = pyMem y l := by
  induction l with
  | nil => rfl
  | cons a as ih =>
    simp only [pyMem, List.any_cons] at ih ⊢
    have hxy : pyEq x a = pyEq y a := by
      cases hx : pyEq x a
      · cases hy : pyEq y a
        · rfl
        · exact absurd (pyEq_trans h hy) (by simp [hx])
      · exact (pyEq_trans (pyEq_symm h) hx).symm
    rw [hxy, ih]

theorem pyMem_cons (x a : Value) (l : List Value) :
    pyMem x (a :: l) = (pyEq x a || pyMem x l) := by
  simp [pyMem]

theorem pyMem_append (x : Value) (l1 l2 : List Value) :
    pyMem x (l1 ++ l2) = (pyMem x l1 || pyMem x l2) := by
  simp [pyMem]

theorem pyDedupAux_congr (l : List Value) :
    ∀ s t : List Value, (∀ v, pyMem v s = pyMem v t) →
    pyDedupAux s l = pyDedupAux t l := by
  induction l with
  | nil => intro s t _; rfl
  | cons x xs ih =>
    intro s t h
    simp only [pyDedupAux, h x]
    cases hx : pyMem x t
    · simp only [Bool.false_eq_true, if_false]
      have : ∀ v, pyMem v (x :: s) = pyMem v (x :: t) := by
        intro v; rw [pyMem_cons, pyMem_cons, h v]
      rw [ih _ _ this]
    · simp only [if_true]
      exact ih _ _ h

theorem pyDedupAux_subset {l : List Value} :
    ∀ (s : List Value) (w : Value), w ∈ pyDedupAux s l → w ∈ l := by
  induction l with
  | nil => intro s w h; simp [pyDedupAux] at h
  | cons x xs ih =>
    intro s w h
    simp only [pyDedupAux] at h
    by_cases hx : pyMem x s = true
    · simp only [hx, if_true] at h
      exact List.mem_cons_of_mem _ (ih _ _ h)
    · simp only [hx, if_false] at h
      rcases List.mem_cons.mp h with h1 | h1
      · exact h1 ▸ List.mem_cons_self _ _
      · exact List.mem_cons_of_mem _ (ih _ _ h1)

theorem pyDedupAux_rep {l : List Value} :
    ∀ (s : List Value) (v : Value), v ∈ l →
    pyMem v s = true ∨ ∃ w ∈ pyDedupAux s l, pyEq v w = true := by
  induction l with
  | nil => intro s v h; simp at h
  | cons x xs ih =>
    intro s v h
    simp only [pyDedupAux]
    by_cases hx : pyMem x s = true
    · simp only [hx, if_true]
      rcases List.mem_cons.mp h with h1 | h1
      · left; rw [h1]; exact hx
      · exact ih s v h1
    · simp only [hx, if_false]
      rcases List.mem_cons.mp h with h1 | h1
      · right; exact ⟨x, List.mem_cons_self _ _, h1 ▸ pyEq_refl x⟩
      · rcases ih (x :: s) v h1 with h2 | h2
        · rw [pyMem_cons] at h2
          rcases Bool.or_eq_true_iff.mp h2 with h3 | h3
          · right; exact ⟨x, List.mem_cons_self _ _, h3⟩
          · left; exact h3
        · right
          obtain ⟨w, hw1, hw2⟩ := h2
          exact ⟨w, List.mem_cons_of_mem _ hw1, hw2⟩

theorem pyDedup_subset {l : List Value} {w : Value} (h : w ∈ pyDedup l) : w ∈ l :=
  pyDedupAux_subset [] w h

theorem pyDedup_rep {l : List Value} {v : Value} (h : v ∈ l) :
    ∃ w ∈ pyDedup l, pyEq v w = true := by
  rcases pyDedupAux_rep [] v h with h1 | h1
  · simp [pyMem] at h1
  · exact h1

/-! ## C1: coercion totality -/

/-- C1: for every declared type, placeholder set and raw value, the
coercion function returns the value coerced to the declared type, the
original value unchanged (exactly when it is a placeholder or a native
null), or the coercion-failure marker.  Being a total Lean function, it
models the guarantee that the Python closure never raises (its only
risky operation, `dtype(x)`, sits under a bare `except`). -/
theorem dtypeCast_typed {dt : DType} {x v : Value} (hdt : dt ≠ .bool)
    (h : dtypeCast dt x = some v) : typedFor dt v := by
  cases dt
  case bool => exact absurd rfl hdt
  all_goals
    cases x <;> simp only [dtypeCast, typedFor, Option.map_eq_some',
      Option.some.injEq, reduceCtorEq] at h ⊢ <;>
    first
    | exact h.elim
    | (obtain ⟨a, _, h2⟩ := h; exact ⟨a, h2.symm⟩)
    | exact ⟨_, h.symm⟩

theorem coercion_trichotomy (dt : DType) (ph tv fv : List Value) (x : Value) :
    (identify_remap_function dt ph tv fv x = x ∧ (pyMem x ph || x.isnull) = true)
    ∨ typedFor dt (identify_remap_function dt ph tv fv x)
    ∨ identify_remap_function dt ph tv fv x = errorVal := by
  by_cases hg : (pyMem x ph || x.isnull) = true
  · left
    refine ⟨?_, hg⟩
    unfold identify_remap_function
    by_cases hdt : dt = DType.bool <;> simp [hdt, hg]
  · by_cases hdt : dt = DType.bool
    · subst hdt
      by_cases h1 : pyMem (clean_up_strings ph x) tv = true
      · right; left; simp [identify_remap_function, hg, h1, typedFor]
      · by_cases h2 : pyMem (clean_up_strings ph x) fv = true
        · right; left; simp [identify_remap_function, hg, h1, h2, typedFor]
        · right; right; simp [identify_remap_function, hg, h1, h2]
    · unfold identify_remap_function
      rw [if_neg hdt, if_neg hg]
      rcases hc : dtypeCast dt x with _ | v
      · right; right; rfl
      · right; left; exact dtypeCast_typed hdt hc

/-! ## C4: order preservation under remap -/

theorem update_order_go (f : Value → Value) (L : List Value) :
    ∀ acc : List Value,
      L.foldl
        (fun acc o =>
          let new_o := f o
          if !pyMem new_o acc && !new_o.isnull then acc ++ [new_o] else acc)
        acc
      = acc ++ pyDedupAux acc ((L.map f).filter (fun v => !v.isnull)) := by
  induction L with
  | nil => intro acc; simp [pyDedupAux]
  | cons o L ih =>
    intro acc
    simp only [List.foldl_cons, List.map_cons, List.filter_cons]
    by_cases hn : (f o).isnull = true
    · simp only [hn, Bool.not_true, Bool.and_false, Bool.false_eq_true, if_false,
        Bool.not_false]
      exact ih acc
    · rw [Bool.not_eq_true] at hn
      simp only [hn, Bool.not_false, Bool.and_true]
      by_cases hm : pyMem (f o) acc = true
      · simp only [hm, Bool.not_true, Bool.false_eq_true, if_false, pyDedupAux,
          if_true]
        exact ih acc
      · rw [Bool.not_eq_true] at hm
        simp only [hm, Bool.not_false, if_true, pyDedupAux, Bool.false_eq_true,
          if_false]
        rw [ih (acc ++ [f o])]
        rw [pyDedupAux_congr _ (acc ++ [f o]) (f o :: acc)
          (fun v => by rw [pyMem_append, pyMem_cons, pyMem_cons, Bool.or_comm]; simp [pyMem])]
        simp

/-- C4: `Categorical._update_order` applied to an admissible list and a
mapping function yields exactly the first-occurrence deduplication of
the null-filtered image of the list — i.e.
`dedupe(filter(not_null, map(f, L)))` with duplicates judged by Python
equality, preserving the relative order of first occurrences. -/
theorem update_order_spec (f : Value → Value) (L : List Value) :
    update_order f L = pyDedup ((L.map f).filter (fun v => !v.isnull)) := by
  unfold update_order pyDedup
  simpa using update_order_go f L []

/-! ## C6: boolean coercion of numeric-looking tokens -/

theorem remap_bool_reduce (ph tv fv : List Value) (x : Value)
    (hm : pyMem x ph = false) (hn : x.isnull = false) :
    identify_remap_function .bool ph tv fv x =
      (if pyMem (clean_up_strings ph x) tv then .bool true
       else if pyMem (clean_up_strings ph x) fv then .bool false
       else errorVal) := by
  unfold identify_remap_function
  rw [if_pos rfl, if_neg (by simp [hm, hn])]

/-- C6 counterexample: under the default vocabularies with no declared
placeholders, the numeric-looking strings `"1"` and `"0"` for a boolean
column are not coerced to `True`/`False`; they produce the
coercion-failure marker (`'1' == 1` is false in Python, so `'1'` is not
a member of `{'yes', 'true', 1, 1.0, True}`). -/
theorem bool_numeric_string_cex :
    identify_remap_function .bool [] true_values false_values (.str "1") = errorVal
    ∧ identify_remap_function .bool [] true_values false_values (.str "0") = errorVal
    ∧ errorVal ≠ .bool true ∧ errorVal ≠ .bool false := by
  refine ⟨by decide, by decide, by decide, by decide⟩

/-- C6 (amended): for a boolean-typed schema with the default true/false
vocabularies, the numeric values `1` and `0` (integer or floating-point)
that are not declared placeholders coerce to `True` and `False`; the
numeric-looking strings `"1"` and `"0"` are in neither vocabulary and
produce the coercion-failure marker instead. -/
theorem bool_numeric_tokens (ph : List Value)
    (h1 : pyMem (.int 1) ph = false) (h0 : pyMem (.int 0) ph = false)
    (hs1 : pyMem (.str "1") ph = false) (hs0 : pyMem (.str "0") ph = false) :
    identify_remap_function .bool ph true_values false_values (.int 1) = .bool true
    ∧ identify_remap_function .bool ph true_values false_values (.float 1) = .bool true
    ∧ identify_remap_function .bool ph true_values false_values (.int 0) = .bool false
    ∧ identify_remap_function .bool ph true_values false_values (.float 0) = .bool false
    ∧ identify_remap_function .bool ph true_values false_values (.str "1") = errorVal
    ∧ identify_remap_function .bool ph true_values false_values (.str "0") = errorVal := by
  have hf1 : pyMem (Value.float 1) ph = false := by
    rw [pyMem_congr ph (show pyEq (Value.float 1) (Value.int 1) = true by decide)]
    exact h1
  have hf0 : pyMem (Value.float 0) ph = false := by
    rw [pyMem_congr ph (show pyEq (Value.float 0) (Value.int 0) = true by decide)]
    exact h0
  refine ⟨?_, ?_, ?_, ?_, ?_, ?_⟩
  · rw [remap_bool_reduce ph true_values false_values _ h1 rfl]; rfl
  · rw [remap_bool_reduce ph true_values false_values _ hf1 rfl]; rfl
  · rw [remap_bool_reduce ph true_values false_values _ h0 rfl]; rfl
  · rw [remap_bool_reduce ph true_values false_values _ hf0 rfl]; rfl
  · rw [remap_bool_reduce ph true_values false_values _ hs1 rfl]
    simp only [clean_up_strings, hs1, Bool.false_eq_true, if_false]
    rfl
  · rw [remap_bool_reduce ph true_values false_values _ hs0 rfl]
    simp only [clean_up_strings, hs0, Bool.false_eq_true, if_false]
    rfl

/-- C6 witness: the amended statement instantiated with no declared
placeholders. -/
theorem bool_numeric_tokens_witness :
    identify_remap_function .bool [] true_values false_values (.int 1) = .bool true
    ∧ identify_remap_function .bool [] true_values false_values (.float 1) = .bool true
    ∧ identify_remap_function .bool [] true_values false_values (.int 0) = .bool false
    ∧ identify_remap_function .bool [] true_values false_values (.float 0) = .bool false
    ∧ identify_remap_function .bool [] true_values false_values (.str "1") = errorVal
    ∧ identify_remap_function .bool [] true_values false_values (.str "0") = errorVal :=
  bool_numeric_tokens [] rfl rfl rfl rfl

/-! ## C2, C3, C10: the validation phases -/

theorem catValidate_blanks_none (s : CatSchema) (col : List Value)
    (h : s.blanks = none) :
    Categorical.validate s col =
      ({ s with log := s.log ++ (catValidateCore s col).1 },
       (catValidateCore s col).2) := by
  unfold Categorical.validate
  rw [h]

/-- C2 counterexample: the claim quantifies over every categorical
validation call, but a categorical schema whose `blanks` attribute is
set crashes with an `UnboundLocalError` before the type check: the call
does not raise the cannot-be-cast type error even though a value of the
column produces a coercion failure, and no provenance entry is
appended. -/
theorem validate_cast_failure_cex :
    (Categorical.validate
      { name := "c", dtype := .int, order := [],
        blanks := some [.str "BLANK"] } [.str "x"]).2 = .nameError
    ∧ CatSchema.remapFn
        { name := "c", dtype := .int, order := [], blanks := some [.str "BLANK"] }
        (.str "x") = errorVal
    ∧ (Categorical.validate
      { name := "c", dtype := .int, order := [],
        blanks := some [.str "BLANK"] } [.str "x"]).1.log = []
    ∧ ValidationOutcome.nameError ≠ .typeError "the data cannot be cast to int" := by
  exact ⟨rfl, by decide, rfl, by decide⟩

/-- C2 (amended): for a categorical or boolean validation call whose
schema has `blanks` unset, and for every continuous validation call, if
some value of the column coerces to the failure marker then the call
raises the type error "the data cannot be cast to `<dtype>`", the
VALUE_CHECK phase is skipped (the single appended entry and the outcome
are decided by the type check alone), and the error provenance entry is
part of the state handed back with the raised error. -/
theorem validate_cast_failure (cs : CatSchema) (ccol : List Value)
    (ks : ContSchema) (kcol : List Value)
    (hb : cs.blanks = none)
    (h1 : (ccol.map cs.remapFn).any (fun v => pyEq v errorVal) = true)
    (h2 : (kcol.map ks.remapFn).any (fun v => pyEq v errorVal) = true) :
    Categorical.validate cs ccol =
      ({ cs with log := cs.log ++
          [⟨cs.name, "validate", "error", castFailMsg cs.dtype⟩] },
       .typeError (castFailMsg cs.dtype))
    ∧ Continous.validate ks kcol =
      ({ ks with log := ks.log ++
          [⟨ks.name, "validate", "error", castFailMsg ks.dtype⟩] },
       .typeError (castFailMsg ks.dtype)) := by
  constructor
  · rw [catValidate_blanks_none cs ccol hb]
    unfold catValidateCore
    simp only [h1, if_true]
  · unfold Continous.validate contValidateCore
    simp only [h2, if_true]

/-- C2 witness: a boolean categorical schema against a non-boolean
column, and a continuous schema against a non-numeric column. -/
theorem validate_cast_failure_witness :
    (Categorical.validate
      { name := "team_captain", dtype := .bool,
        order := [.str "True", .str "False"] } [.str "Striker"]).2 =
      .typeError "the data cannot be cast to bool"
    ∧ (Continous.validate
      { name := "age", units := "years", bound_lower := some (.int 0) }
      [.str "x"]).2 = .typeError "the data cannot be cast to float" := by
  have h := validate_cast_failure
    { name := "team_captain", dtype := .bool, order := [.str "True", .str "False"] }
    [.str "Striker"]
    { name := "age", units := "years", bound_lower := some (.int 0) }
    [.str "x"] rfl (by decide) (by decide)
  exact ⟨by rw [h.1]; rfl, by rw [h.2]; rfl⟩

theorem value_phase_all_iff (s : CatSchema) (col : List Value) :
    (((pyDedup (col.map s.remapFn)).filter (fun v => !v.isnull)).all
        (fun v => pyMem v s.acceptable) = true)
    ↔ (∀ v ∈ col.map s.remapFn, v = .null ∨ pyMem v s.acceptable = true) := by
  constructor
  · intro h v hv
    by_cases hn : v = Value.null
    · exact Or.inl hn
    · right
      obtain ⟨w, hw, hvw⟩ := pyDedup_rep hv
      have hwn : ¬ w.isnull = true := by
        intro hwE
        apply hn
        cases w <;> simp [Value.isnull] at hwE
        exact pyEq_null hvw
      have hwmem : w ∈ (pyDedup (col.map s.remapFn)).filter (fun v => !v.isnull) :=
        List.mem_filter.mpr ⟨hw, by simp [hwn]⟩
      have hres := List.all_eq_true.mp h w hwmem
      rw [pyMem_congr s.acceptable hvw]
      exact hres
  · intro h
    rw [List.all_eq_true]
    intro w hw
    have hw2 := List.mem_filter.mp hw
    have hwl : w ∈ col.map s.remapFn := pyDedup_subset hw2.1
    rcases h w hwl with h1 | h1
    · rw [h1] at hw2
      simp [Value.isnull] at hw2
    · exact h1

/-- C3 counterexample: the claim quantifies over every categorical or
boolean schema, but when `blanks` is set the call crashes before either
check: every value coerces successfully and every distinct coerced value
is admissible, yet validation does not pass (and no pass entry is
recorded). -/
theorem validate_value_check_cex :
    (Categorical.validate
      { name := "c", dtype := .str, order := [.str "a"],
        blanks := some [.str "B"] } [.str "a"]).2 ≠ .ok
    ∧ (∀ v ∈ ([.str "a"] : List Value).map
        (CatSchema.remapFn
          { name := "c", dtype := .str, order := [.str "a"],
            blanks := some [.str "B"] }),
        v = .null ∨ pyMem v (CatSchema.acceptable
          { name := "c", dtype := .str, order := [.str "a"],
            blanks := some [.str "B"] }) = true)
    ∧ (Categorical.validate
      { name := "c", dtype := .str, order := [.str "a"],
        blanks := some [.str "B"] } [.str "a"]).1.log = [] := by
  exact ⟨by decide, by decide, rfl⟩

/-- C3 (amended): for a categorical or boolean schema with `blanks`
unset whose column values all coerce successfully, validation passes if
and only if every distinct coerced value is null or belongs to the
placeholders together with the admissible values (as coerced to the
declared type); on a pass a pass provenance entry is recorded, and on a
failure the diagnostic lists exactly the offending values in sorted
order. -/
theorem validate_value_check_iff (s : CatSchema) (col : List Value)
    (hb : s.blanks = none)
    (hcast : (col.map s.remapFn).any (fun v => pyEq v errorVal) = false) :
    ((Categorical.validate s col).2 = .ok ↔
      ∀ v ∈ col.map s.remapFn, v = .null ∨ pyMem v s.acceptable = true)
    ∧ ((Categorical.validate s col).2 = .ok →
        (Categorical.validate s col).1.log = s.log ++
          [⟨s.name, "validate", "pass", castPassMsg s.dtype⟩,
           ⟨s.name, "validate", "pass", "all values were valid"⟩])
    ∧ ((Categorical.validate s col).2 ≠ .ok →
        (Categorical.validate s col).2 = .valueError (invalidMsg s col)
        ∧ (Categorical.validate s col).1.log = s.log ++
          [⟨s.name, "validate", "pass", castPassMsg s.dtype⟩,
           ⟨s.name, "validate", "error", invalidMsg s col⟩]) := by
  rw [catValidate_blanks_none s col hb]
  have hcore :
      catValidateCore s col =
        (if ((pyDedup (col.map s.remapFn)).filter (fun v => !v.isnull)).all
              (fun v => pyMem v s.acceptable)
         then ([⟨s.name, "validate", "pass", castPassMsg s.dtype⟩,
                ⟨s.name, "validate", "pass", "all values were valid"⟩], .ok)
         else ([⟨s.name, "validate", "pass", castPassMsg s.dtype⟩,
                ⟨s.name, "validate", "error", invalidMsg s col⟩],
               .valueError (invalidMsg s col))) := by
    unfold catValidateCore
    simp only [hcast, Bool.false_eq_true, if_false]
    rfl
  rw [hcore]
  by_cases hv : ((pyDedup (col.map s.remapFn)).filter (fun v => !v.isnull)).all
      (fun v => pyMem v s.acceptable) = true
  · rw [if_pos hv]
    exact ⟨⟨fun _ => (value_phase_all_iff s col).mp hv, fun _ => rfl⟩,
      fun _ => rfl, fun hne => absurd rfl hne⟩
  · rw [if_neg hv]
    refine ⟨⟨fun hok => absurd hok (by simp), ?_⟩,
      fun hok => absurd hok (by simp), fun _ => ⟨rfl, rfl⟩⟩
    intro hforall
    exact absurd ((value_phase_all_iff s col).mpr hforall) hv

/-- C3 witness: the all-admissible position column passes; the
years-on-team column of out-of-domain strings fails listing `1 | 2 | 4`
in sorted order. -/
theorem validate_value_check_iff_witness :
    (Categorical.validate
      { name := "position", dtype := .str,
        order := [.str "Striker", .str "D-man", .str "Goalie"] }
      [.str "Striker", .str "D-man", .str "D-man", .str "Goalie"]).2 = .ok
    ∧ (Categorical.validate
      { name := "years_on_team", dtype := .str,
        order := [.str "Striker", .str "D-man", .str "Goalie"] }
      [.str "1", .str "2", .str "2", .str "4"]).2 =
        .valueError "The following are not valid values: 1 | 2 | 4" := by
  constructor
  · exact (validate_value_check_iff _ _ rfl (by decide)).1.mpr (by decide)
  · have h := validate_value_check_iff
      { name := "years_on_team", dtype := .str,
        order := [.str "Striker", .str "D-man", .str "Goalie"] }
      [.str "1", .str "2", .str "2", .str "4"] rfl (by decide)
    have hne : (Categorical.validate
        { name := "years_on_team", dtype := .str,
          order := [.str "Striker", .str "D-man", .str "Goalie"] }
        [.str "1", .str "2", .str "2", .str "4"]).2 ≠ .ok := by
      intro hok
      exact absurd (h.1.mp hok) (by decide)
    rw [(h.2.2 hne).1]
    decide

/-- C10 counterexample: as stated the claim covers every str-typed
schema, but one with `blanks` set dies with an `UnboundLocalError`
instead of the cannot-be-cast type error when a cell holds `'error'`. -/
theorem str_error_value_cex :
    (Categorical.validate
      { name := "c", dtype := .str, order := [], blanks := some [.str "B"] }
      [.str "error"]).2 = .nameError
    ∧ ValidationOutcome.nameError ≠ .typeError "the data cannot be cast to str" := by
  exact ⟨rfl, by decide⟩

/-- C10 (amended): for a str-typed categorical schema with `blanks`
unset, validation raises the cannot-be-cast type error whenever any cell
of the column is the literal string `'error'`, even though coercion to
`str` genuinely succeeds on every input (it returns the value unchanged
or a string): the failure marker is the string `'error'` itself, so a
genuinely occurring `'error'` cell is indistinguishable from a coercion
failure. -/
theorem str_error_value (s : CatSchema) (col : List Value)
    (hd : s.dtype = .str) (hb : s.blanks = none)
    (hmem : Value.str "error" ∈ col) :
    (Categorical.validate s col).2 = .typeError "the data cannot be cast to str"
    ∧ ∀ x : Value, s.remapFn x = x ∨ ∃ t : String, s.remapFn x = .str t := by
  have hf : s.remapFn (.str "error") = errorVal := by
    unfold CatSchema.remapFn identify_remap_function
    rw [hd]
    by_cases hph : pyMem (.str "error") s.placeholders = true
    · simp [hph, errorVal]
    · simp [hph, dtypeCast, pyStr, Value.isnull, errorVal]
  have hany : (col.map s.remapFn).any (fun v => pyEq v errorVal) = true := by
    rw [List.any_eq_true]
    exact ⟨s.remapFn (.str "error"), List.mem_map_of_mem _ hmem,
      by rw [hf]; exact pyEq_refl _⟩
  constructor
  · rw [catValidate_blanks_none s col hb]
    show (catValidateCore s col).2 = _
    unfold catValidateCore
    simp only [hany, if_true]
    rw [hd]
    rfl
  · intro x
    unfold CatSchema.remapFn identify_remap_function
    rw [hd]
    by_cases hg : (pyMem x s.placeholders || x.isnull) = true
    · left; simp [hg]
    · right
      refine ⟨pyStr x, ?_⟩
      simp [hg, dtypeCast]

/-- C10 witness: a str-typed schema whose column holds a literal
`'error'` cell. -/
theorem str_error_value_witness :
    (Categorical.validate
      { name := "position", dtype := .str, order := [.str "Striker"] }
      [.str "Striker", .str "error"]).2 =
      .typeError "the data cannot be cast to str" :=
  (str_error_value _ _ rfl rfl (by decide)).1

/-! ## C5: inclusive bounds of continuous validation -/

theorem contValidateCore_ok_iff (s : ContSchema) (col : List Value)
    (hcast : (col.map s.remapFn).any (fun v => pyEq v errorVal) = false) :
    (contValidateCore s col).2 = .ok ↔
      (s.lowerIssue col = false ∧ s.upperIssue col = false) := by
  unfold contValidateCore ContSchema.lowerIssue ContSchema.upperIssue
  simp only [hcast, Bool.false_eq_true, if_false]
  cases hl : (match s.bound_lower with
    | some lo => (s.cleaned col).any (fun v => numLt v lo)
    | none => false) <;>
  cases hu : (match s.bound_upper with
    | some hi => (s.cleaned col).any (fun v => numGt v hi)
    | none => false) <;>
  simp [hl, hu]

theorem lowerIssue_false_iff (s : ContSchema) (col : List Value) :
    s.lowerIssue col = false ↔
      ∀ v ∈ s.cleaned col, ∀ lo, s.bound_lower = some lo → numLt v lo = false := by
  unfold ContSchema.lowerIssue
  cases hlo : s.bound_lower with
  | none => simp
  | some lo => simp [List.any_eq_false]

theorem upperIssue_false_iff (s : ContSchema) (col : List Value) :
    s.upperIssue col = false ↔
      ∀ v ∈ s.cleaned col, ∀ hi, s.bound_upper = some hi → numGt v hi = false := by
  unfold ContSchema.upperIssue
  cases hup : s.bound_upper with
  | none => simp
  | some hi => simp [List.any_eq_false]

theorem contValidateCore_lower_fail (s : ContSchema) (col : List Value)
    (hcast : (col.map s.remapFn).any (fun v => pyEq v errorVal) = false)
    (lo : Value) (hlo : s.bound_lower = some lo) (hup : s.bound_upper = none)
    (ha : (s.cleaned col).any (fun v => numLt v lo) = true) :
    (contValidateCore s col).2 =
      .valueError ("There are values less than " ++ pyStr lo ++ " " ++
        s.units ++ ".") := by
  unfold contValidateCore
  simp only [hcast, Bool.false_eq_true, if_false, hlo, hup, ha, Bool.and_false,
    if_true]
  rw [show "There are values " ++ ("less than " ++ pyStr lo) =
      "There are values less than " ++ pyStr lo from by
    rw [← String.append_assoc]
    rfl]

/-- C5: for a continuous schema whose column coerces cleanly, validation
passes exactly when no surviving (non-placeholder, non-null) coerced
value is strictly below the lower bound or strictly above the upper
bound — so a value exactly equal to a bound passes — and with a lower
bound only, a violation reports the values-less-than diagnostic. -/
theorem continous_bounds_inclusive (s : ContSchema) (col : List Value)
    (hcast : (col.map s.remapFn).any (fun v => pyEq v errorVal) = false) :
    ((Continous.validate s col).2 = .ok ↔
      ∀ v ∈ s.cleaned col,
        (∀ lo, s.bound_lower = some lo → numLt v lo = false) ∧
        (∀ hi, s.bound_upper = some hi → numGt v hi = false))
    ∧ (∀ lo, s.bound_lower = some lo → s.bound_upper = none →
        (∃ v ∈ s.cleaned col, numLt v lo = true) →
        (Continous.validate s col).2 =
          .valueError ("There are values less than " ++ pyStr lo ++ " " ++
            s.units ++ ".")) := by
  constructor
  · rw [show (Continous.validate s col).2 = (contValidateCore s col).2 from rfl,
      contValidateCore_ok_iff s col hcast, lowerIssue_false_iff,
      upperIssue_false_iff]
    constructor
    · intro h v hv
      exact ⟨h.1 v hv, h.2 v hv⟩
    · intro h
      exact ⟨fun v hv => (h v hv).1, fun v hv => (h v hv).2⟩
  · intro lo hlo hup hex
    rw [show (Continous.validate s col).2 = (contValidateCore s col).2 from rfl]
    exact contValidateCore_lower_fail s col hcast lo hlo hup
      (List.any_eq_true.mpr hex)

/-- C5 witness: with `lower_bound=1`, `upper_bound=None` and units
`years`, the column `[1, 2, 2, 4]` (containing the bound exactly)
passes, and `[0, 2, 2, 4]` fails with the less-than-1 diagnostic. -/
theorem continous_bounds_inclusive_witness :
    (Continous.validate
      { name := "years_on_team", units := "years", bound_lower := some (.int 1) }
      [.int 1, .int 2, .int 2, .int 4]).2 = .ok
    ∧ (Continous.validate
      { name := "years_on_team", units := "years", bound_lower := some (.int 1) }
      [.int 0, .int 2, .int 2, .int 4]).2 =
        .valueError "There are values less than 1 years." := by
  constructor
  · exact (continous_bounds_inclusive _ _ (by decide)).1.mpr (by decide)
  · have h := (continous_bounds_inclusive
      { name := "years_on_team", units := "years", bound_lower := some (.int 1) }
      [.int 0, .int 2, .int 2, .int 4] (by decide)).2 (.int 1) rfl rfl (by decide)
    exact h.trans (by decide)

/-! ## C8: idempotence of validation -/

/-- C9: a categorical schema built without a name mapping (none supplied
at construction, no prior convert-to-numeric call) has no
`name_mapping` attribute at all, so `analysis_convert_to_label` dies
reading `self.name_mapping` with an `AttributeError` — before the
documented log-and-raise path can run: no error provenance entry is
recorded.  This evaluates the embedded code at the failing input. -/
theorem convert_to_label_missing_table :
    analysis_convert_to_label
      { name := "position", dtype := .str,
        order := [.str "Striker", .str "D-man", .str "Goalie"] }
      [.str "Striker"] =
      ({ name := "position", dtype := .str,
         order := [.str "Striker", .str "D-man", .str "Goalie"] },
       [.str "Striker"], .attributeError "name_mapping")
    ∧ (analysis_convert_to_label
      { name := "position", dtype := .str,
        order := [.str "Striker", .str "D-man", .str "Goalie"] }
      [.str "Striker"]).1.log = [] := by
  exact ⟨rfl, rfl⟩

/-! ## C7: round trip through the flat series encoding -/

theorem eqAsSet_singleton_ebi (s : String) : eqAsSet [s] ebiNullStr = false := by
  by_cases h : s = "not applicable"
  · subst h; decide
  · have hne : ("not applicable" : String) ≠ s := fun hh => h hh.symm
    unfold eqAsSet
    have hF2 : (ebiNullStr.all fun x => List.contains [s] x) = false := by
      apply List.all_eq_false.mpr
      refine ⟨"not applicable", by decide, ?_⟩
      simpa using hne
    rw [hF2, Bool.and_false]

theorem parseDType_dtypeName (dt : DType) : parseDType (dtypeName dt) = some dt := by
  cases dt <;> rfl

theorem fmtIterable_str_single (s : String) :
    fmtIterable DType.str [s] = some s := rfl

theorem fmtIterable_bool_single (s : String) :
    fmtIterable DType.bool [s] = some s := rfl

/-- C7 counterexample: a schema with `ontology='GO'` does not round-trip.
`_read_series` funnels every `properties_set` key (`ontology`, `blanks`,
`source_columns`, `derivative_columns`) through `_iterable_from_str`, so
the plain string `'GO'` comes back as the set `{'GO'}`. -/
theorem question_round_trip_cex :
    question_round_trip
      { name := "q1", description := "d", dtype := .str, clean_name := "Q1",
        ontology := .str "GO" } ≠
      some ({ name := "q1", description := "d", dtype := .str,
              clean_name := "Q1", ontology := .str "GO" } : QSchema)
    ∧ question_round_trip
      { name := "q1", description := "d", dtype := .str, clean_name := "Q1",
        ontology := .str "GO" } =
      some ({ name := "q1", description := "d", dtype := .str,
              clean_name := "Q1", ontology := .strSet ["GO"] } : QSchema) := by
  exact ⟨by decide, by decide⟩

set_option maxHeartbeats 10000000 in
/-- C7 (amended): encoding to the flat delimited series and decoding
back reproduces the schema exactly (the provenance log is excluded by
construction) for schemas in the faithfully-invertible fragment: the
set-coded optional attributes (`ontology`, `blanks`, `colormap`,
`original_name`, `source_columns`, `derivative_columns`, `notes`) unset,
no scalar attribute equal to the null literal `'None'`, and `missing`
either the default vocabulary or a single value on a `str`/`bool` typed
schema.  Outside this fragment round-tripping loses structure: strings
come back as sets, multi-valued `missing` collapses to one string,
`'None'`-valued attributes vanish, and non-`'%s'` format strings raise
while serializing. -/
theorem question_series_round_trip (q : QSchema)
    (hq : q.qtype = "Question")
    (hont : q.ontology = .none) (hblk : q.blanks = .none)
    (hcmap : q.colormap = .none) (horig : q.original_name = .none)
    (hsrc : q.source_columns = .strList [])
    (hder : q.derivative_columns = .strList [])
    (hnotes : q.notes = .none)
    (hname : q.name ≠ "None") (hdesc : q.description ≠ "None")
    (hdlen : q.description.length ≤ 80) (hclean : q.clean_name ≠ "None")
    (hmis : q.missing = ebiNullStr ∨
      (∃ s, q.missing = [s] ∧ s ≠ "None" ∧ (q.dtype = .str ∨ q.dtype = .bool))) :
    question_round_trip q = some q := by
  obtain ⟨nm, ds, dt, qt, cn, fr, mk, ont, mis, blk, cm, og, sc, dc, nt⟩ := q
  simp only at hq hont hblk hcmap horig hsrc hder hnotes hname hdesc hdlen hclean hmis
  subst hq hont hblk hcmap horig hsrc hder hnotes
  rcases hmis with hmis | ⟨s, hmis, hsN, hsdt⟩
  · subst hmis
    cases fr <;> cases mk <;>
      simp [question_round_trip, question_to_series, question_read_series,
        serAttr, entryOpt, lookupKey, parseDType_dtypeName, parseBin,
        parseOptSetAttr, parseStrAttr, allowedKeys, pyTitle, hname, hdesc,
        hclean, hdlen, show eqAsSet ebiNullStr ebiNullStr = true from by decide]
  · subst hmis
    rcases hsdt with hdt | hdt <;> subst hdt <;> cases fr <;> cases mk <;>
      simp [question_round_trip, question_to_series, question_read_series,
        serAttr, entryOpt, lookupKey, parseDType_dtypeName, parseBin,
        parseOptSetAttr, parseStrAttr, allowedKeys, pyTitle,
        fmtIterable_str_single, fmtIterable_bool_single, hname, hdesc,
        hclean, hdlen, hsN, eqAsSet_singleton_ebi]

/-- C7 witness: the fragment theorem at the round-trip test's own
schema, extended with a singleton missing set. -/
theorem question_series_round_trip_witness :
    question_round_trip
      { name := "player_name", description := "Samwell Hockey Players",
        dtype := .str, clean_name := "Player Name", free_response := true,
        missing := ["TBD"] } =
      some ({ name := "player_name", description := "Samwell Hockey Players",
              dtype := .str, clean_name := "Player Name", free_response := true,
              missing := ["TBD"] } : QSchema) :=
  question_series_round_trip _ rfl rfl rfl rfl rfl rfl rfl rfl (by decide)
    (by decide) (by decide) (by decide) (Or.inr ⟨"TBD", rfl, by decide, Or.inl rfl⟩)

end Break4w
